import Mathlib

/-!
Verification development for the PDW (pulse descriptor word) radar simulator.

The Python source is embedded shallowly:

* machine floats are modelled as exact rationals (`ℚ`) for the purely
  arithmetic code paths (simulation loop, PRI generators, detection,
  TOA composition, grid-indexed series), and as real numbers (`ℝ`) for the
  code paths that use transcendental functions (rotation model, antenna
  lobe pattern, Doppler geometry);
* `while` loops are embedded as fuel-indexed structural recursions; the
  theorems below are either fuel-uniform (so they hold for the fuel of the
  actual terminating run) or come with an explicit fuel-stability
  (termination) statement;
* calls to the random source (`np.random.normal`, `np.random.random`) are
  embedded as explicit parameters: a single draw becomes a `ℚ` argument, a
  stream of draws becomes a `ℕ → ℚ` argument, and the theorems quantify
  over them;
* Python exceptions that the claims talk about (`IndexError` from reading
  an empty series) are made explicit with `Except`.
-/

/-! ## Scenario time stepping (models.py `Scenario.update`, main.py `run_simulation`)

`Scenario.update` advances `current_time` by one `time_step` (it also
refreshes entity positions, which do not affect the timeline and are not
modelled here). -/

/-- Time component of `Scenario.update` (models.py line 16):
`self.current_time += self.time_step`. -/
def scenario_update (current_time time_step : ℚ) : ℚ :=
  current_time + time_step

/-- The `while scenario.current_time <= scenario.end_time` loop of
`run_simulation` (main.py lines 63-79), fuel-indexed.  Each iteration calls
`scenario.update()` (which already adds `time_step`) and then additionally
executes `scenario.current_time += scenario.time_step` at the end of the
body, so one iteration advances the clock by `2 * time_step`.  Returns the
iteration count and the final `current_time`. -/
def run_simulation_loop (end_time time_step : ℚ) : ℕ → ℚ → ℕ × ℚ
  | 0, current => (0, current)
  | fuel + 1, current =>
    if current ≤ end_time then
      let after_update := scenario_update current time_step
      let after_body := after_update + time_step
      let rest := run_simulation_loop end_time time_step fuel after_body
      (rest.1 + 1, rest.2)
    else
      (0, current)

/-! ## TOA measurement (main.py `generate_pdw`, sensor_properties.py `measure_toa`) -/

/-- Speed of light in m/s, as used at both call sites. -/
def speed_of_light : ℚ := 299792458

/-- sensor_properties.py `measure_toa` (lines 156-188), magnitudes only:
`measured_toa = true_toa + delta_Tr + TOA_syst + TOA_arb` with
`delta_Tr = r / c`.  The systematic error is a function of the current
time `t`; the arbitrary error is a single random draw, passed as a value. -/
def measure_toa (true_toa r t : ℚ) (toa_error_syst : ℚ → ℚ) (toa_error_arb : ℚ) : ℚ :=
  true_toa + r / speed_of_light + toa_error_syst t + toa_error_arb

/-- TOA part of main.py `generate_pdw` (lines 108-154):
`true_toa = pulse_time + (distance / speed_of_light)` followed by
`measured_toa = sensor.measure_toa(true_toa, distance, current_time)`. -/
def generate_pdw_toa (pulse_time distance current_time : ℚ)
    (toa_error_syst : ℚ → ℚ) (toa_error_arb : ℚ) : ℚ :=
  measure_toa (pulse_time + distance / speed_of_light) distance current_time
    toa_error_syst toa_error_arb

/-! ## Grid-indexed series (radar_properties.py `fixed_frequency`,
`fixed_pulse_width`; models.py `get_current_frequency`,
`get_current_pulse_width`)

`int((end_time - start_time) / 0.001)` truncates toward zero; on the
nonnegative horizons considered here that is the floor. -/

/-- radar_properties.py `fixed_frequency` (lines 267-276):
`np.full(int((end_time - start_time) / 0.001), frequency)`. -/
def fixed_frequency (start_time end_time frequency : ℚ) : List ℚ :=
  List.replicate (⌊(end_time - start_time) / (1 / 1000)⌋).toNat frequency

/-- radar_properties.py `fixed_pulse_width` (lines 333-342):
`np.full(int((end_time - start_time) / 0.001), pulse_width)`. -/
def fixed_pulse_width (start_time end_time pulse_width : ℚ) : List ℚ :=
  List.replicate (⌊(end_time - start_time) / (1 / 1000)⌋).toNat pulse_width

/-- models.py `Radar.get_current_frequency` (lines 78-91): returns `None`
when the series is uncomputed, otherwise reads `self.frequencies[0]`,
which raises `IndexError` on an empty array (embedded as `Except.error`). -/
def get_current_frequency (frequencies : Option (List ℚ)) : Except String (Option ℚ) :=
  match frequencies with
  | none => Except.ok none
  | some fs =>
    match fs.head? with
    | none => Except.error "IndexError"
    | some f => Except.ok (some f)

/-- models.py `Radar.get_current_pulse_width` (lines 93-105): same shape as
`get_current_frequency`, reading `self.pulse_widths[0]`. -/
def get_current_pulse_width (pulse_widths : Option (List ℚ)) : Except String (Option ℚ) :=
  match pulse_widths with
  | none => Except.ok none
  | some ps =>
    match ps.head? with
    | none => Except.error "IndexError"
    | some p => Except.ok (some p)

/-! ## Pulse detection (sensor_properties.py `detect_pulse`) -/

/-- The `for level, prob in zip(detection_levels, detection_probabilities)`
scan of `detect_pulse`: at the first level the amplitude strictly exceeds,
return `random() < prob`; if none matches, return `False`.  The single
`np.random.random()` draw is the parameter `rand`. -/
def detect_pulse_scan (amplitude : ℚ) : List (ℚ × ℚ) → ℚ → Bool
  | [], _ => false
  | (level, prob) :: rest, rand =>
    if level < amplitude then decide (rand < prob) else detect_pulse_scan amplitude rest rand

/-- sensor_properties.py `detect_pulse` (lines 76-92), magnitudes only:
amplitudes above `saturation_level` are always detected; otherwise the
level/probability list is scanned in order. -/
def detect_pulse (amplitude : ℚ) (detection_levels detection_probabilities : List ℚ)
    (saturation_level : ℚ) (rand : ℚ) : Bool :=
  if saturation_level < amplitude then true
  else detect_pulse_scan amplitude (detection_levels.zip detection_probabilities) rand

/-! ## PRI generators (radar_properties.py lines 84-188)

These are event-indexed `while current_time < end_time` loops, embedded
with fuel.  Python list indexing `pri_pattern[pri_index]` with
`pri_index = (pri_index + 1) % len(pri_pattern)` is embedded with
`List.getD`; the invariant `pri_index < pattern.length` is maintained by
the proofs.  Repetition counts (used only through `range(rep)`) are
embedded as naturals. -/

/-- radar_properties.py `fixed_pri` (lines 84-93):
`np.arange(start_time, end_time, pri)`, whose exact-arithmetic meaning is
the list `start_time + k * pri` for `k < ⌈(end_time - start_time)/pri⌉`. -/
def fixed_pri (start_time end_time pri : ℚ) : List ℚ :=
  (List.range (⌈(end_time - start_time) / pri⌉).toNat).map
    fun k : ℕ => start_time + (k : ℚ) * pri

/-- Loop of radar_properties.py `stagger_pri` (lines 96-114):
append `current_time`, advance by `pri_pattern[pri_index]`, cycle the
index modulo the pattern length. -/
def stagger_pri_loop (end_time : ℚ) (pri_pattern : List ℚ) : ℕ → ℚ → ℕ → List ℚ
  | 0, _, _ => []
  | fuel + 1, current, idx =>
    if current < end_time then
      current ::
        stagger_pri_loop end_time pri_pattern fuel (current + pri_pattern.getD idx 0)
          ((idx + 1) % pri_pattern.length)
    else []

/-- radar_properties.py `stagger_pri`: the loop started at `start_time`
with `pri_index = 0`. -/
def stagger_pri (fuel : ℕ) (start_time end_time : ℚ) (pri_pattern : List ℚ) : List ℚ :=
  stagger_pri_loop end_time pri_pattern fuel start_time 0

/-- Innermost `for _ in range(rep)` loop of radar_properties.py
`switched_pri` (lines 130-136): repeatedly check `current_time >= end_time`
(break), append, advance by `pri`.  Returns the appended times and the
updated `current_time`. -/
def switched_pri_inner (end_time pri : ℚ) : ℕ → ℚ → List ℚ × ℚ
  | 0, current => ([], current)
  | rep + 1, current =>
    if end_time ≤ current then ([], current)
    else
      let rest := switched_pri_inner end_time pri rep (current + pri)
      (current :: rest.1, rest.2)

/-- Middle `for pri, rep in zip(pri_pattern, repetitions)` loop of
`switched_pri`: one pass over the zipped pairs. -/
def switched_pri_pass (end_time : ℚ) : List (ℚ × ℕ) → ℚ → List ℚ × ℚ
  | [], current => ([], current)
  | (pri, rep) :: rest, current =>
    let first := switched_pri_inner end_time pri rep current
    let later := switched_pri_pass end_time rest first.2
    (first.1 ++ later.1, later.2)

/-- Outer `while current_time < end_time` loop of `switched_pri`,
fuel-indexed. -/
def switched_pri_loop (end_time : ℚ) (pairs : List (ℚ × ℕ)) : ℕ → ℚ → List ℚ
  | 0, _ => []
  | fuel + 1, current =>
    if current < end_time then
      let pass := switched_pri_pass end_time pairs current
      pass.1 ++ switched_pri_loop end_time pairs fuel pass.2
    else []

/-- radar_properties.py `switched_pri` (lines 117-138).  Note that
`zip(pri_pattern, repetitions)` silently truncates to the shorter of the
two lists. -/
def switched_pri (fuel : ℕ) (start_time end_time : ℚ) (pri_pattern : List ℚ)
    (repetitions : List ℕ) : List ℚ :=
  switched_pri_loop end_time (pri_pattern.zip repetitions) fuel start_time

/-- One jittered inter-pulse gap of radar_properties.py `jitter_pri`
(lines 182-184): `jittered_pri = max(mean_pri + jitter, mean_pri * 0.1)`,
where `jitter = np.random.normal(0, std_dev)` is the draw `d`. -/
def jitter_step (mean_pri d : ℚ) : ℚ :=
  max (mean_pri + d) (mean_pri * (1 / 10))

/-- Loop of radar_properties.py `jitter_pri` (lines 169-188), fuel-indexed;
`draws n` is the `n`-th `np.random.normal(0, std_dev)` sample (the
percentage only scales the distribution of the draws, which are
universally quantified in the theorems). -/
def jitter_pri_loop (end_time mean_pri : ℚ) (draws : ℕ → ℚ) : ℕ → ℕ → ℚ → List ℚ
  | 0, _, _ => []
  | fuel + 1, n, current =>
    if current < end_time then
      current :: jitter_pri_loop end_time mean_pri draws fuel (n + 1)
        (current + jitter_step mean_pri (draws n))
    else []

/-- radar_properties.py `jitter_pri`: the loop started at `start_time` on
draw index `0`. -/
def jitter_pri (fuel : ℕ) (start_time end_time mean_pri jitter_percentage : ℚ)
    (draws : ℕ → ℚ) : List ℚ :=
  jitter_pri_loop end_time mean_pri draws fuel 0 start_time

/-! ## Rotation model (radar_properties.py lines 7-48) -/

/-- radar_properties.py `varying_rotation_period` (lines 19-34):
`omega0 = 2*pi/T_rot`,
`B = (A/s) * (cos(s*omega0*t0 + phi0) - cos(phi0))`,
returns `alpha0 + omega0*(t - t0) - (A/s)*cos(s*omega0*t + phi0) + B`. -/
noncomputable def varying_rotation_period (t t0 alpha0 T_rot A s phi0 : ℝ) : ℝ :=
  let omega0 := 2 * Real.pi / T_rot
  let B := (A / s) * (Real.cos (s * omega0 * t0 + phi0) - Real.cos phi0)
  alpha0 + omega0 * (t - t0) - (A / s) * Real.cos (s * omega0 * t + phi0) + B

/-! ## Antenna lobe pattern (radar_properties.py `sinc_lobe_pattern`, lines 394-444)

The Python function initializes `P_theta = np.zeros_like(theta)` and then
fills the three angle regions through boolean masks.  For the main-lobe
region it uses chained boolean indexing,
`P_theta[mask1][zero_x] = P_ml` and `P_theta[mask1][nonzero_x] = ...`:
in numpy, `P_theta[mask1]` is advanced (boolean) indexing and yields a new
copy, so these two statements assign into a temporary that is immediately
discarded, and every entry with `|theta| <= pi/2` keeps its initial value
`0.0`.  The back-lobe regions use single-level mask assignment
(`P_theta[mask2] = ...`), which does write through.  The embedding below is
the element-wise denotation of exactly that behavior. -/

/-- Base-10 logarithm, `np.log10`. -/
noncomputable def log10 (y : ℝ) : ℝ :=
  Real.log y / Real.log 10

/-- The scaled argument `x = 0.443 * sin(theta) / (sin(theta_ml/2) + eps)`
with `eps = 1e-10` (radar_properties.py lines 411-412). -/
noncomputable def sinc_lobe_x (theta theta_ml : ℝ) : ℝ :=
  (443 / 1000) * Real.sin theta / (Real.sin (theta_ml / 2) + 1 / 10 ^ 10)

/-- Value of one entry of the `P_theta` array returned by
`sinc_lobe_pattern`: `0` in the main-lobe region (the chained-mask
assignments are lost, see the section comment), and the sinc-plus-linear
back-lobe formula beyond `±pi/2`. -/
noncomputable def sinc_lobe_pattern_entry (theta theta_ml P_ml P_bl : ℝ) : ℝ :=
  let x := sinc_lobe_x theta theta_ml
  if |theta| ≤ Real.pi / 2 then 0
  else if Real.pi / 2 < theta then
    20 * log10 |Real.sin (Real.pi * x) / (Real.pi * x)| + P_ml +
      2 / Real.pi * P_bl * (theta - Real.pi / 2)
  else
    20 * log10 |Real.sin (Real.pi * x) / (Real.pi * x)| + P_ml +
      2 / Real.pi * P_bl * (-theta - Real.pi / 2)

/-- radar_properties.py `sinc_lobe_pattern` (lines 394-444) on an array of
angles, magnitudes only (radians and dB). -/
noncomputable def sinc_lobe_pattern (thetas : List ℝ) (theta_ml P_ml P_bl : ℝ) : List ℝ :=
  thetas.map fun theta => sinc_lobe_pattern_entry theta theta_ml P_ml P_bl

/-! ## Doppler model (radar_properties.py lines 193-264, sensor_properties.py
`measure_frequency`, models.py `Sensor.measure_frequency`) -/

/-- Planar position and velocity of a radar or sensor, magnitudes in
meters and meters/second. -/
structure EntityState where
  px : ℝ
  py : ℝ
  vx : ℝ
  vy : ℝ

/-- radar_properties.py `calculate_relative_velocity` (lines 212-240):
the component of `sensor_velocity - radar_velocity` along the unit vector
from radar to sensor, `0.0` when the positions coincide. -/
noncomputable def calculate_relative_velocity (radar sensor : EntityState) : ℝ :=
  let dx := sensor.px - radar.px
  let dy := sensor.py - radar.py
  let distance := Real.sqrt (dx * dx + dy * dy)
  if distance = 0 then 0
  else (sensor.vx - radar.vx) * (dx / distance) + (sensor.vy - radar.vy) * (dy / distance)

/-- radar_properties.py `calculate_doppler_shift` (lines 193-210):
`-2 * f * v / c` in Hz. -/
noncomputable def calculate_doppler_shift (transmitted_frequency relative_velocity : ℝ) : ℝ :=
  -2 * transmitted_frequency * relative_velocity / 299792458

/-- radar_properties.py `apply_doppler_effect` (lines 242-264): adds the
Doppler shift computed from the two entities' kinematics. -/
noncomputable def apply_doppler_effect (measured_frequency : ℝ) (radar sensor : EntityState) : ℝ :=
  measured_frequency +
    calculate_doppler_shift measured_frequency (calculate_relative_velocity radar sensor)

/-- sensor_properties.py `measure_frequency` (lines 193-217):
`base = true_frequency + f_syst(t) + f_arb`, Doppler-shifted only when both
the optional `radar` and `sensor` arguments are supplied (they default to
`None`). -/
noncomputable def measure_frequency (true_frequency t : ℝ) (frequency_error_syst : ℝ → ℝ)
    (frequency_error_arb : ℝ) (radar sensor : Option EntityState) : ℝ :=
  let base := true_frequency + frequency_error_syst t + frequency_error_arb
  match radar, sensor with
  | some r, some s => apply_doppler_effect base r s
  | _, _ => base

/-- models.py `Sensor.measure_frequency` (lines 275-276): the wrapper
forwards only `(true_frequency, t)` and the sensor's two error models to
`measure_frequency`; it accepts no radar argument, so the optional `radar`
and `sensor` parameters keep their `None` defaults and no Doppler shift is
ever applied through this method.  (The call site in `generate_pdw` passes
a third positional argument `radar`, which the two-parameter method cannot
accept: in Python that call raises `TypeError`.) -/
noncomputable def sensor_measure_frequency (true_frequency t : ℝ)
    (frequency_error_syst : ℝ → ℝ) (frequency_error_arb : ℝ) : ℝ :=
  measure_frequency true_frequency t frequency_error_syst frequency_error_arb none none

/-! ## Helper lemmas -/

/-- `zip` truncates both lists to the length of the shorter one. -/
theorem zip_take_min (l1 : List ℚ) (l2 : List ℕ) :
    (l1.take (min l1.length l2.length)).zip (l2.take (min l1.length l2.length)) = l1.zip l2 := by
  induction l1 generalizing l2 with
  | nil => simp
  | cons a l ih =>
    cases l2 with
    | nil => simp
    | cons b m =>
      simp only [List.length_cons, Nat.succ_min_succ, List.take_succ_cons, List.zip_cons_cons]
      rw [ih m]

/-! ## Claim theorems -/

/-- C1: the claim says each tick of the simulation loop advances
`current_time` by exactly `time_step` and that the loop performs
`ceil((end_time - start_time)/time_step)` ticks.  Evaluating the embedded
loop on the scenario `start_time = 0`, `end_time = 1`, `time_step = 1/4`:
the loop performs 3 iterations (not `⌈(1-0)/(1/4)⌉ = 4`) and ends at
`current_time = 3/2` (so each iteration advanced the clock by `1/2`, twice
the time step: once inside `Scenario.update` and once more at the end of
the loop body). -/
theorem C1_run_simulation_double_step :
    run_simulation_loop 1 (1/4) 10 0 = (3, 3/2) ∧
      (⌈((1 : ℚ) - 0) / (1/4)⌉ = 4) ∧ (3 : ℕ) ≠ 4 := by
  refine ⟨?_, ?_, by norm_num⟩
  · norm_num [run_simulation_loop, scenario_update]
  · norm_num

/-- C3: the claim says the propagation delay `r/c` enters the recorded TOA
exactly once.  Evaluating the embedded `generate_pdw`/`measure_toa`
composition at emission time `0`, distance `299792458` m (one light-second)
and zero errors: the code records TOA `2` s, while the claimed formula
`true_emission_time + r/c + syst + arb` gives `1` s — `generate_pdw` folds
`r/c` into `true_toa` and `measure_toa` adds `delta_Tr = r/c` again. -/
theorem C3_toa_delay_double_counted :
    generate_pdw_toa 0 299792458 0 (fun _ => 0) 0 = 2 ∧
      (0 : ℚ) + 299792458 / speed_of_light + 0 + 0 = 1 := by
  constructor <;> norm_num [generate_pdw_toa, measure_toa, speed_of_light]

/-- C5 counterexample: with `t0 = 0`, `alpha0 = 0`, `T_rot = 1`, `A = 1`,
`s = 1`, `phi0 = 0` (so `T_rot > 0` and `s ≠ 0`), the varying-rotation
angle at `t = t0` is `-1`, not `alpha0 = 0`: the correction term `B` does
not make `angle(t0) = alpha0`. -/
theorem C5_counterexample :
    varying_rotation_period 0 0 0 1 1 1 0 = -1 ∧ (-1 : ℝ) ≠ 0 := by
  constructor
  · simp only [varying_rotation_period]
    norm_num
  · norm_num

/-- C5 (amended): for every choice of parameters, the varying-rotation
angle at `t = t0` equals `alpha0 - (A/s)·cos(phi0)` — the additive term
`B = (A/s)(cos(s·omega0·t0 + phi0) - cos(phi0))` cancels the oscillatory
cosine at `t0` but leaves the constant `-(A/s)·cos(phi0)` behind, so the
series starts at `alpha0` only when `A·cos(phi0) = 0`. -/
theorem C5_varying_rotation_initial_angle (t0 alpha0 T_rot A s phi0 : ℝ) :
    varying_rotation_period t0 t0 alpha0 T_rot A s phi0 =
      alpha0 - A / s * Real.cos phi0 := by
  simp only [varying_rotation_period]
  ring

/-- C6 counterexample: calling the switched-PRI generator with pattern
`[1/2, 1/4]` and repetitions `[1]` — lists of different lengths — does not
raise any error: it produces the pulse sequence `[0, 1/2]` on `[0, 1)`
(built from the single zipped pair `(1/2, 1)`). -/
theorem C6_counterexample :
    switched_pri 3 0 1 [1/2, 1/4] [1] = [0, 1/2] := by
  norm_num [switched_pri, switched_pri_loop, switched_pri_pass, switched_pri_inner,
    List.zip_cons_cons, List.zip_nil_right]

/-- C6 (amended): generating a switched series whose pattern list and
repetitions list have different lengths raises no error; `zip` silently
truncates both lists to the shorter length, so the produced sequence is
exactly the one obtained from the two truncated lists. -/
theorem C6_switched_pri_zip_truncates (fuel : ℕ) (start_time end_time : ℚ)
    (pattern : List ℚ) (reps : List ℕ) :
    switched_pri fuel start_time end_time pattern reps =
      switched_pri fuel start_time end_time
        (pattern.take (min pattern.length reps.length))
        (reps.take (min pattern.length reps.length)) := by
  unfold switched_pri
  rw [zip_take_min]

/-- Scan helper for C8: when the amplitude exceeds none of the levels in
the zipped list, the scan falls through and returns `false`, for every
random draw. -/
theorem detect_pulse_scan_eq_false (amplitude rand : ℚ) (pairs : List (ℚ × ℚ))
    (h : ∀ pr ∈ pairs, amplitude ≤ pr.1) :
    detect_pulse_scan amplitude pairs rand = false := by
  induction pairs with
  | nil => rfl
  | cons p rest ih =>
    obtain ⟨level, prob⟩ := p
    have hle : amplitude ≤ level := h (level, prob) (List.mem_cons_self _ _)
    simp only [detect_pulse_scan, if_neg (not_lt.2 hle)]
    exact ih fun pr hpr => h pr (List.mem_cons_of_mem _ hpr)

/-- C8: `detect_pulse` returns `true` for every amplitude strictly above
the saturation level, for every detection-level list, probability list and
random draw; and it returns `false` for every random draw when the
amplitude neither exceeds the saturation level nor any detection level in
the list. -/
theorem C8_detect_pulse_bounds (amplitude saturation_level : ℚ)
    (detection_levels detection_probabilities : List ℚ) (rand : ℚ) :
    (saturation_level < amplitude →
      detect_pulse amplitude detection_levels detection_probabilities saturation_level rand
        = true) ∧
    (amplitude ≤ saturation_level → (∀ l ∈ detection_levels, amplitude ≤ l) →
      detect_pulse amplitude detection_levels detection_probabilities saturation_level rand
        = false) := by
  constructor
  · intro h
    simp [detect_pulse, if_pos h]
  · intro hsat hlev
    simp only [detect_pulse, if_neg (not_lt.2 hsat)]
    exact detect_pulse_scan_eq_false _ _ _ fun pr hpr =>
      hlev pr.1 (List.of_mem_zip hpr).1

/-- C8 witness: a saturated pulse (amplitude 5 dB over saturation 3 dB) is
detected with the random draw 0, and a pulse at amplitude 0 dB below every
level of `[1, 2]` and below saturation 3 dB is rejected with the random
draw 0. -/
theorem C8_witness :
    detect_pulse 5 [1] [1/2] 3 0 = true ∧ detect_pulse 0 [1, 2] [1/2, 1/2] 3 0 = false :=
  ⟨(C8_detect_pulse_bounds 5 3 [1] [1/2] 0).1 (by norm_num),
   (C8_detect_pulse_bounds 0 3 [1, 2] [1/2, 1/2] 0).2 (by norm_num)
     (by intro l hl; fin_cases hl <;> norm_num)⟩

/-- C10: when the simulation horizon is shorter than 1 ms, the fixed
frequency and pulse-width series have length `int((end-start)/0.001) = 0`,
and the first-entry reads `get_current_frequency` / `get_current_pulse_width`
fail with an out-of-bounds access (`IndexError`) instead of returning a
value. -/
theorem C10_short_horizon_empty_series (start_time end_time frequency pulse_width : ℚ)
    (h1 : start_time ≤ end_time) (h2 : end_time - start_time < 1 / 1000) :
    (fixed_frequency start_time end_time frequency).length = 0 ∧
    (fixed_pulse_width start_time end_time pulse_width).length = 0 ∧
    get_current_frequency (some (fixed_frequency start_time end_time frequency)) =
      Except.error "IndexError" ∧
    get_current_pulse_width (some (fixed_pulse_width start_time end_time pulse_width)) =
      Except.error "IndexError" := by
  have h0 : (0 : ℚ) ≤ (end_time - start_time) / (1 / 1000) := by
    apply div_nonneg (by linarith) (by norm_num)
  have hlt : (end_time - start_time) / (1 / 1000) < 1 := by
    rw [div_lt_iff₀ (by norm_num : (0:ℚ) < 1 / 1000)]
    linarith
  have hfloor : ⌊(end_time - start_time) / (1 / 1000)⌋ = 0 :=
    Int.floor_eq_zero_iff.2 ⟨h0, hlt⟩
  have hfreq : fixed_frequency start_time end_time frequency = [] := by
    unfold fixed_frequency
    rw [hfloor]
    rfl
  have hpw : fixed_pulse_width start_time end_time pulse_width = [] := by
    unfold fixed_pulse_width
    rw [hfloor]
    rfl
  refine ⟨by simp [hfreq], by simp [hpw], ?_, ?_⟩
  · rw [hfreq]; rfl
  · rw [hpw]; rfl

/-- C10 witness: a 0.5 ms horizon yields empty series and `IndexError`
reads for a 15 GHz fixed frequency and a 1 µs fixed pulse width. -/
theorem C10_witness :
    (fixed_frequency 0 (1/2000) 15000000000).length = 0 ∧
    (fixed_pulse_width 0 (1/2000) (1/1000000)).length = 0 ∧
    get_current_frequency (some (fixed_frequency 0 (1/2000) 15000000000)) =
      Except.error "IndexError" ∧
    get_current_pulse_width (some (fixed_pulse_width 0 (1/2000) (1/1000000))) =
      Except.error "IndexError" :=
  C10_short_horizon_empty_series 0 (1/2000) 15000000000 (1/1000000)
    (by norm_num) (by norm_num)

/-- C2: the claim says the sinc lobe pattern returns exactly `P_ml` at
boresight and `20·log10(|sinc(x)|) + P_ml` on the main lobe.  Evaluating
the embedded function at `theta = 0` with `theta_ml = 1`, `P_ml = 10`,
`P_bl = -20`: the returned power is `0`, not `10` — the two main-lobe
assignments go through chained boolean indexing (`P_theta[mask1][...] = …`),
which writes into a temporary copy, so every main-lobe entry keeps the
`np.zeros_like` initialization. -/
theorem C2_sinc_mainlobe_zeroed :
    sinc_lobe_pattern [0] 1 10 (-20) = [0] ∧ (0 : ℝ) ≠ 10 := by
  refine ⟨?_, by norm_num⟩
  have h : |(0 : ℝ)| ≤ Real.pi / 2 := by
    rw [abs_zero]
    positivity
  simp only [sinc_lobe_pattern, List.map_cons, List.map_nil, sinc_lobe_pattern_entry, if_pos h]

/-- C4: the claim says the recorded frequency is Doppler-shifted from the
radar's and sensor's kinematics.  Evaluating the embedded
`Sensor.measure_frequency` wrapper at true frequency `c` Hz with zero
errors: the result is `c`, unshifted, even for a radar at the origin and a
sensor at `(1, 0)` m receding at `(1, 0)` m/s, for which the claimed
Doppler-shifted value is `c - 2` Hz — the two-parameter wrapper never
forwards the radar and sensor objects, so `measure_frequency` keeps its
`None` defaults and skips `apply_doppler_effect` (the three-argument call
in `generate_pdw` does not even match the wrapper's arity). -/
theorem C4_doppler_never_applied :
    sensor_measure_frequency 299792458 0 (fun _ => 0) 0 = 299792458 ∧
      apply_doppler_effect 299792458 ⟨0, 0, 0, 0⟩ ⟨1, 0, 1, 0⟩ = 299792458 - 2 ∧
      (299792458 : ℝ) ≠ 299792458 - 2 := by
  refine ⟨?_, ?_, by norm_num⟩
  · simp [sensor_measure_frequency, measure_frequency]
  · simp only [apply_doppler_effect, calculate_doppler_shift, calculate_relative_velocity]
    norm_num [Real.sqrt_one]

/-! ## Invariants of the PRI generators (for C7) -/

/-- Elements of `fixed_pri` lie in `[start_time, end_time)` when the step
is positive. -/
theorem fixed_pri_mem (start_time end_time pri : ℚ) (hpri : 0 < pri) :
    ∀ x ∈ fixed_pri start_time end_time pri, start_time ≤ x ∧ x < end_time := by
  intro x hx
  unfold fixed_pri at hx
  obtain ⟨k, hk, rfl⟩ := List.mem_map.1 hx
  rw [List.mem_range] at hk
  constructor
  · have hk0 : (0 : ℚ) ≤ (k : ℚ) * pri := mul_nonneg (by positivity) hpri.le
    linarith
  · have hkz : (k : ℤ) < ⌈(end_time - start_time) / pri⌉ := by omega
    have hkq : (k : ℚ) < (end_time - start_time) / pri := by
      have h1 : (k : ℚ) ≤ ((⌈(end_time - start_time) / pri⌉ : ℤ) : ℚ) - 1 := by
        exact_mod_cast Int.le_sub_one_of_lt hkz
      have h2 : ((⌈(end_time - start_time) / pri⌉ : ℤ) : ℚ) <
          (end_time - start_time) / pri + 1 := Int.ceil_lt_add_one _
      linarith
    have := (lt_div_iff₀ hpri).1 hkq
    linarith

/-- `fixed_pri` is strictly increasing when the step is positive. -/
theorem fixed_pri_pairwise (start_time end_time pri : ℚ) (hpri : 0 < pri) :
    (fixed_pri start_time end_time pri).Pairwise (· < ·) := by
  unfold fixed_pri
  refine List.Pairwise.map _ ?_ (List.pairwise_lt_range _)
  intro a b hab
  have hq : (a : ℚ) < b := by exact_mod_cast hab
  nlinarith

/-- `fixed_pri` starts at `start_time` when the interval is nonempty. -/
theorem fixed_pri_head (start_time end_time pri : ℚ) (hpri : 0 < pri)
    (hse : start_time < end_time) :
    (fixed_pri start_time end_time pri).head? = some start_time := by
  have hq : 0 < (end_time - start_time) / pri := div_pos (by linarith) hpri
  have hc : 0 < ⌈(end_time - start_time) / pri⌉ := Int.ceil_pos.2 hq
  have hn : 0 < (⌈(end_time - start_time) / pri⌉).toNat := by omega
  obtain ⟨m, hm⟩ := Nat.exists_eq_succ_of_ne_zero (Nat.pos_iff_ne_zero.1 hn)
  unfold fixed_pri
  rw [hm, List.range_succ_eq_map]
  simp

/-- Loop invariant of `stagger_pri_loop`: all produced times lie in
`[current, end_time)` and the list is strictly increasing, as long as the
pattern is nonempty with positive entries and the index is in range. -/
theorem stagger_pri_loop_spec (end_time : ℚ) (pattern : List ℚ)
    (hpos : ∀ p ∈ pattern, 0 < p) :
    ∀ (fuel : ℕ) (current : ℚ) (idx : ℕ), idx < pattern.length →
      (∀ x ∈ stagger_pri_loop end_time pattern fuel current idx,
        current ≤ x ∧ x < end_time) ∧
      (stagger_pri_loop end_time pattern fuel current idx).Pairwise (· < ·) := by
  intro fuel
  induction fuel with
  | zero =>
    intro current idx _
    simp [stagger_pri_loop]
  | succ fuel ih =>
    intro current idx hidx
    by_cases hc : current < end_time
    · have hg : 0 < pattern.getD idx 0 := by
        refine hpos _ ?_
        rw [List.getD_eq_getElem pattern 0 hidx]
        exact List.getElem_mem hidx
      have hlen : 0 < pattern.length := lt_of_le_of_lt (Nat.zero_le idx) hidx
      obtain ⟨ihmem, ihpair⟩ :=
        ih (current + pattern.getD idx 0) ((idx + 1) % pattern.length)
          (Nat.mod_lt _ hlen)
      simp only [stagger_pri_loop, if_pos hc]
      refine ⟨?_, ?_⟩
      · intro x hx
        rcases List.mem_cons.1 hx with rfl | hx
        · exact ⟨le_refl x, hc⟩
        · obtain ⟨h1, h2⟩ := ihmem x hx
          exact ⟨by linarith, h2⟩
      · refine List.pairwise_cons.2 ⟨?_, ihpair⟩
        intro b hb
        obtain ⟨h1, _⟩ := ihmem b hb
        linarith
    · simp [stagger_pri_loop, if_neg hc]

/-- `stagger_pri_loop` emits the current time first whenever it runs at
all. -/
theorem stagger_pri_loop_head (end_time : ℚ) (pattern : List ℚ) (fuel : ℕ)
    (current : ℚ) (idx : ℕ) (hc : current < end_time) (hf : 1 ≤ fuel) :
    (stagger_pri_loop end_time pattern fuel current idx).head? = some current := by
  cases fuel with
  | zero => omega
  | succ n => simp [stagger_pri_loop, if_pos hc]

/-- Invariants of the innermost repetition loop of `switched_pri`: the
emitted times lie in `[current, end_time)`, the final time is at least the
initial one, every emitted time is strictly below the final time, and the
emitted list is strictly increasing. -/
theorem switched_pri_inner_spec (end_time pri : ℚ) (hpri : 0 < pri) :
    ∀ (rep : ℕ) (current : ℚ),
      (∀ x ∈ (switched_pri_inner end_time pri rep current).1,
        current ≤ x ∧ x < end_time) ∧
      current ≤ (switched_pri_inner end_time pri rep current).2 ∧
      (∀ x ∈ (switched_pri_inner end_time pri rep current).1,
        x < (switched_pri_inner end_time pri rep current).2) ∧
      (switched_pri_inner end_time pri rep current).1.Pairwise (· < ·) := by
  intro rep
  induction rep with
  | zero =>
    intro current
    simp [switched_pri_inner]
  | succ rep ih =>
    intro current
    by_cases hc : end_time ≤ current
    · simp [switched_pri_inner, if_pos hc]
    · push_neg at hc
      obtain ⟨ih1, ih2, ih3, ih4⟩ := ih (current + pri)
      simp only [switched_pri_inner, if_neg (not_le.2 hc)]
      refine ⟨?_, ?_, ?_, ?_⟩
      · intro x hx
        rcases List.mem_cons.1 hx with rfl | hx
        · exact ⟨le_refl x, hc⟩
        · obtain ⟨h1, h2⟩ := ih1 x hx
          exact ⟨by linarith, h2⟩
      · linarith
      · intro x hx
        rcases List.mem_cons.1 hx with rfl | hx
        · linarith
        · exact ih3 x hx
      · refine List.pairwise_cons.2 ⟨?_, ih4⟩
        intro b hb
        obtain ⟨h1, _⟩ := ih1 b hb
        linarith

/-- Invariants of one pass of `switched_pri` over the zipped
pattern/repetition pairs. -/
theorem switched_pri_pass_spec (end_time : ℚ) :
    ∀ (pairs : List (ℚ × ℕ)), (∀ pr ∈ pairs, 0 < pr.1) →
    ∀ current : ℚ,
      (∀ x ∈ (switched_pri_pass end_time pairs current).1,
        current ≤ x ∧ x < end_time) ∧
      current ≤ (switched_pri_pass end_time pairs current).2 ∧
      (∀ x ∈ (switched_pri_pass end_time pairs current).1,
        x < (switched_pri_pass end_time pairs current).2) ∧
      (switched_pri_pass end_time pairs current).1.Pairwise (· < ·) := by
  intro pairs
  induction pairs with
  | nil =>
    intro _ current
    simp [switched_pri_pass]
  | cons p rest ih =>
    intro hpos current
    obtain ⟨pri, rep⟩ := p
    have hpri : 0 < pri := hpos (pri, rep) (List.mem_cons_self _ _)
    obtain ⟨i1, i2, i3, i4⟩ := switched_pri_inner_spec end_time pri hpri rep current
    obtain ⟨p1, p2, p3, p4⟩ :=
      ih (fun pr h => hpos pr (List.mem_cons_of_mem _ h))
        (switched_pri_inner end_time pri rep current).2
    simp only [switched_pri_pass]
    refine ⟨?_, by linarith, ?_, ?_⟩
    · intro x hx
      rcases List.mem_append.1 hx with hx | hx
      · exact i1 x hx
      · obtain ⟨h1, h2⟩ := p1 x hx
        exact ⟨by linarith, h2⟩
    · intro x hx
      rcases List.mem_append.1 hx with hx | hx
      · exact lt_of_lt_of_le (i3 x hx) p2
      · exact p3 x hx
    · refine List.pairwise_append.2 ⟨i4, p4, ?_⟩
      intro a ha b hb
      obtain ⟨h1, _⟩ := p1 b hb
      exact lt_of_lt_of_le (i3 a ha) h1

/-- Invariants of the outer fuel-indexed loop of `switched_pri`. -/
theorem switched_pri_loop_spec (end_time : ℚ) (pairs : List (ℚ × ℕ))
    (hpos : ∀ pr ∈ pairs, 0 < pr.1) :
    ∀ (fuel : ℕ) (current : ℚ),
      (∀ x ∈ switched_pri_loop end_time pairs fuel current,
        current ≤ x ∧ x < end_time) ∧
      (switched_pri_loop end_time pairs fuel current).Pairwise (· < ·) := by
  intro fuel
  induction fuel with
  | zero =>
    intro current
    simp [switched_pri_loop]
  | succ fuel ih =>
    intro current
    by_cases hc : current < end_time
    · obtain ⟨p1, p2, p3, p4⟩ := switched_pri_pass_spec end_time pairs hpos current
      obtain ⟨l1, l2⟩ := ih (switched_pri_pass end_time pairs current).2
      simp only [switched_pri_loop, if_pos hc]
      refine ⟨?_, ?_⟩
      · intro x hx
        rcases List.mem_append.1 hx with hx | hx
        · exact p1 x hx
        · obtain ⟨h1, h2⟩ := l1 x hx
          exact ⟨by linarith, h2⟩
      · refine List.pairwise_append.2 ⟨p4, l2, ?_⟩
        intro a ha b hb
        obtain ⟨h1, _⟩ := l1 b hb
        exact lt_of_lt_of_le (p3 a ha) h1
    · simp [switched_pri_loop, if_neg hc]

/-- A pass emits the entry time first, provided the loop condition holds
and some zipped pair has a positive repetition count. -/
theorem switched_pri_pass_head (end_time : ℚ) :
    ∀ (pairs : List (ℚ × ℕ)) (current : ℚ), current < end_time →
      (∃ pr ∈ pairs, 0 < pr.2) →
      (switched_pri_pass end_time pairs current).1.head? = some current := by
  intro pairs
  induction pairs with
  | nil =>
    rintro current _ ⟨pr, hmem, _⟩
    exact absurd hmem (List.not_mem_nil pr)
  | cons p rest ih =>
    rintro current hc ⟨pr, hmem, hpr⟩
    obtain ⟨pri, rep⟩ := p
    cases rep with
    | zero =>
      have hmem' : pr ∈ rest := by
        rcases List.mem_cons.1 hmem with rfl | h
        · exact absurd hpr (by norm_num)
        · exact h
      simp only [switched_pri_pass, switched_pri_inner]
      exact ih current hc ⟨pr, hmem', hpr⟩
    | succ m =>
      simp only [switched_pri_pass, switched_pri_inner, if_neg (not_le.2 hc)]
      simp

/-- The outer loop of `switched_pri` emits `current` first whenever it
runs at all and some zipped pair has a positive repetition count. -/
theorem switched_pri_loop_head (end_time : ℚ) (pairs : List (ℚ × ℕ)) (fuel : ℕ)
    (current : ℚ) (hc : current < end_time) (hf : 1 ≤ fuel)
    (hex : ∃ pr ∈ pairs, 0 < pr.2) :
    (switched_pri_loop end_time pairs fuel current).head? = some current := by
  cases fuel with
  | zero => omega
  | succ n =>
    simp only [switched_pri_loop, if_pos hc]
    rw [List.head?_append, switched_pri_pass_head end_time pairs current hc hex]
    rfl

/-- C7: for every `start_time < end_time`, the fixed, stagger and switched
PRI generators each produce a strictly increasing sequence whose first
element is `start_time` and all of whose elements lie in
`[start_time, end_time)` — for fixed with a positive `pri`, for stagger
with a nonempty pattern of positive values, and for switched with positive
pattern values and at least one positive repetition count among the zipped
pattern/repetition pairs.  The fuel-indexed loops satisfy the bound and
ordering properties for every fuel, in particular for the fuel of the
actual terminating run. -/
theorem C7_pri_generators_sorted (fuel : ℕ) (start_time end_time pri : ℚ)
    (stagger_pattern switched_pattern : List ℚ) (repetitions : List ℕ)
    (hf : 1 ≤ fuel) (hse : start_time < end_time) (hpri : 0 < pri)
    (hsp : stagger_pattern ≠ [])
    (hspos : ∀ p ∈ stagger_pattern, 0 < p)
    (hwpos : ∀ p ∈ switched_pattern, 0 < p)
    (hrep : ∃ pr ∈ switched_pattern.zip repetitions, 0 < pr.2) :
    ((fixed_pri start_time end_time pri).Pairwise (· < ·) ∧
      (fixed_pri start_time end_time pri).head? = some start_time ∧
      ∀ x ∈ fixed_pri start_time end_time pri, start_time ≤ x ∧ x < end_time) ∧
    ((stagger_pri fuel start_time end_time stagger_pattern).Pairwise (· < ·) ∧
      (stagger_pri fuel start_time end_time stagger_pattern).head? = some start_time ∧
      ∀ x ∈ stagger_pri fuel start_time end_time stagger_pattern,
        start_time ≤ x ∧ x < end_time) ∧
    ((switched_pri fuel start_time end_time switched_pattern repetitions).Pairwise (· < ·) ∧
      (switched_pri fuel start_time end_time switched_pattern repetitions).head?
        = some start_time ∧
      ∀ x ∈ switched_pri fuel start_time end_time switched_pattern repetitions,
        start_time ≤ x ∧ x < end_time) := by
  refine ⟨⟨fixed_pri_pairwise _ _ _ hpri, fixed_pri_head _ _ _ hpri hse,
    fixed_pri_mem _ _ _ hpri⟩, ?_, ?_⟩
  · have hidx : 0 < stagger_pattern.length := List.length_pos.2 hsp
    obtain ⟨hmem, hpair⟩ :=
      stagger_pri_loop_spec end_time stagger_pattern hspos fuel start_time 0 hidx
    exact ⟨hpair, stagger_pri_loop_head end_time stagger_pattern fuel start_time 0 hse hf,
      hmem⟩
  · have hzpos : ∀ pr ∈ switched_pattern.zip repetitions, 0 < pr.1 := fun pr hpr =>
      hwpos pr.1 (List.of_mem_zip hpr).1
    obtain ⟨hmem, hpair⟩ :=
      switched_pri_loop_spec end_time (switched_pattern.zip repetitions) hzpos fuel
        start_time
    exact ⟨hpair,
      switched_pri_loop_head end_time (switched_pattern.zip repetitions) fuel start_time
        hse hf hrep, hmem⟩

/-- C7 witness: on `[0, 1)` with fuel 5, a fixed PRI of `1/2`, the stagger
pattern `[1/3]` and the switched pattern `[1/2]` with repetitions `[2]`
all yield strictly increasing sequences starting at `0` inside `[0, 1)`. -/
theorem C7_witness :
    ((fixed_pri 0 1 (1/2)).Pairwise (· < ·) ∧
      (fixed_pri 0 1 (1/2)).head? = some 0 ∧
      ∀ x ∈ fixed_pri 0 1 (1/2), 0 ≤ x ∧ x < 1) ∧
    ((stagger_pri 5 0 1 [1/3]).Pairwise (· < ·) ∧
      (stagger_pri 5 0 1 [1/3]).head? = some 0 ∧
      ∀ x ∈ stagger_pri 5 0 1 [1/3], 0 ≤ x ∧ x < 1) ∧
    ((switched_pri 5 0 1 [1/2] [2]).Pairwise (· < ·) ∧
      (switched_pri 5 0 1 [1/2] [2]).head? = some 0 ∧
      ∀ x ∈ switched_pri 5 0 1 [1/2] [2], 0 ≤ x ∧ x < 1) :=
  C7_pri_generators_sorted 5 0 1 (1/2) [1/3] [1/2] [2]
    (by norm_num) (by norm_num) (by norm_num)
    (by simp)
    (by intro p hp; fin_cases hp <;> norm_num)
    (by intro p hp; fin_cases hp <;> norm_num)
    (by
      refine ⟨(1/2, 2), ?_, by norm_num⟩
      simp [List.zip_cons_cons, List.zip_nil_right])

/-! ## Jitter PRI invariants (for C9) -/

/-- Every jittered gap is at least a tenth of the mean PRI: the `max`
clamp fires regardless of the random draw. -/
theorem jitter_step_lower_bound (mean_pri d : ℚ) :
    mean_pri * (1/10) ≤ jitter_step mean_pri d :=
  le_max_right _ _

/-- One-step unfolding of the jitter loop. -/
theorem jitter_pri_loop_succ (end_time mean_pri : ℚ) (draws : ℕ → ℚ)
    (fuel n : ℕ) (current : ℚ) :
    jitter_pri_loop end_time mean_pri draws (fuel + 1) n current =
      if current < end_time then
        current :: jitter_pri_loop end_time mean_pri draws fuel (n + 1)
          (current + jitter_step mean_pri (draws n))
      else [] := rfl

/-- The jitter loop either emits nothing or emits its entry time first. -/
theorem jitter_pri_loop_head (end_time mean_pri : ℚ) (draws : ℕ → ℚ) :
    ∀ (fuel n : ℕ) (current : ℚ),
      (jitter_pri_loop end_time mean_pri draws fuel n current).head? = none ∨
      (jitter_pri_loop end_time mean_pri draws fuel n current).head? = some current := by
  intro fuel n current
  cases fuel with
  | zero => exact Or.inl rfl
  | succ m =>
    by_cases hc : current < end_time
    · right
      simp [jitter_pri_loop, if_pos hc]
    · left
      simp [jitter_pri_loop, if_neg hc]

/-- Consecutive times emitted by the jitter loop are at least
`mean_pri / 10` apart, for every fuel and every draw sequence. -/
theorem jitter_pri_loop_chain (end_time mean_pri : ℚ) (draws : ℕ → ℚ) :
    ∀ (fuel n : ℕ) (current : ℚ),
      List.Chain' (fun a b => mean_pri * (1/10) ≤ b - a)
        (jitter_pri_loop end_time mean_pri draws fuel n current) := by
  intro fuel
  induction fuel with
  | zero =>
    intro n current
    simp [jitter_pri_loop]
  | succ fuel ih =>
    intro n current
    by_cases hc : current < end_time
    · simp only [jitter_pri_loop, if_pos hc]
      refine List.chain'_cons'.2 ⟨?_, ih (n + 1) _⟩
      intro b hb
      rcases jitter_pri_loop_head end_time mean_pri draws fuel (n + 1)
          (current + jitter_step mean_pri (draws n)) with h | h
      · rw [h] at hb
        exact absurd hb (by simp)
      · rw [h] at hb
        have hb' : current + jitter_step mean_pri (draws n) = b := by
          simpa using hb
        have := jitter_step_lower_bound mean_pri (draws n)
        rw [← hb']
        linarith
    · simp [jitter_pri_loop, if_neg hc]

/-- One unit of extra fuel does not change the jitter loop's output once
the fuel covers `⌈(end_time - current) / (mean_pri/10)⌉` iterations: since
every gap is at least `mean_pri/10`, that much fuel already drives
`current` past `end_time`. -/
theorem jitter_pri_loop_stable (end_time mean_pri : ℚ) (draws : ℕ → ℚ)
    (hm : 0 < mean_pri) :
    ∀ (fuel n : ℕ) (current : ℚ),
      (⌈(end_time - current) / (mean_pri * (1/10))⌉).toNat ≤ fuel →
      jitter_pri_loop end_time mean_pri draws (fuel + 1) n current =
        jitter_pri_loop end_time mean_pri draws fuel n current := by
  have hd : 0 < mean_pri * (1/10) := by positivity
  intro fuel
  induction fuel with
  | zero =>
    intro n current hb
    have hce : ⌈(end_time - current) / (mean_pri * (1/10))⌉ ≤ 0 := by omega
    have hq : (end_time - current) / (mean_pri * (1/10)) ≤ 0 := by
      exact_mod_cast Int.ceil_le.1 hce
    have hc : ¬ current < end_time := by
      intro hlt
      have : 0 < (end_time - current) / (mean_pri * (1/10)) :=
        div_pos (by linarith) hd
      linarith
    simp [jitter_pri_loop, if_neg hc]
  | succ fuel ih =>
    intro n current hb
    by_cases hc : current < end_time
    · have hstep := jitter_step_lower_bound mean_pri (draws n)
      have hnext :
          (⌈(end_time - (current + jitter_step mean_pri (draws n))) /
            (mean_pri * (1/10))⌉).toNat ≤ fuel := by
        have hmono :
            (end_time - (current + jitter_step mean_pri (draws n))) /
              (mean_pri * (1/10)) ≤
            (end_time - current) / (mean_pri * (1/10)) - 1 := by
          have h1 : end_time - (current + jitter_step mean_pri (draws n)) ≤
              end_time - current - mean_pri * (1/10) := by linarith
          calc (end_time - (current + jitter_step mean_pri (draws n))) /
              (mean_pri * (1/10))
              ≤ (end_time - current - mean_pri * (1/10)) / (mean_pri * (1/10)) := by
                gcongr
            _ = (end_time - current) / (mean_pri * (1/10)) - 1 := by
                rw [sub_div, div_self (ne_of_gt hd)]
        have hceil :
            ⌈(end_time - (current + jitter_step mean_pri (draws n))) /
              (mean_pri * (1/10))⌉ ≤
            ⌈(end_time - current) / (mean_pri * (1/10))⌉ - 1 := by
          calc ⌈(end_time - (current + jitter_step mean_pri (draws n))) /
              (mean_pri * (1/10))⌉
              ≤ ⌈(end_time - current) / (mean_pri * (1/10)) - 1⌉ :=
                Int.ceil_le_ceil hmono
            _ = ⌈(end_time - current) / (mean_pri * (1/10))⌉ - 1 :=
                Int.ceil_sub_one _
        have hpos : 1 ≤ ⌈(end_time - current) / (mean_pri * (1/10))⌉ := by
          have : 0 < (end_time - current) / (mean_pri * (1/10)) :=
            div_pos (by linarith) hd
          exact Int.ceil_pos.2 this
        omega
      have := ih (n + 1) (current + jitter_step mean_pri (draws n)) hnext
      rw [jitter_pri_loop_succ end_time mean_pri draws (fuel + 1) n current,
        jitter_pri_loop_succ end_time mean_pri draws fuel n current,
        if_pos hc, if_pos hc, this]
    · simp [jitter_pri_loop, if_neg hc]

/-- Once the fuel reaches `⌈(end_time - current) / (mean_pri/10)⌉`, the
jitter loop's output no longer depends on the fuel: the loop terminates. -/
theorem jitter_pri_loop_stable_ge (end_time mean_pri : ℚ) (draws : ℕ → ℚ)
    (hm : 0 < mean_pri) :
    ∀ (fuel n : ℕ) (current : ℚ),
      (⌈(end_time - current) / (mean_pri * (1/10))⌉).toNat ≤ fuel →
      jitter_pri_loop end_time mean_pri draws fuel n current =
        jitter_pri_loop end_time mean_pri draws
          (⌈(end_time - current) / (mean_pri * (1/10))⌉).toNat n current := by
  intro fuel
  induction fuel with
  | zero =>
    intro n current hb
    have : (⌈(end_time - current) / (mean_pri * (1/10))⌉).toNat = 0 := by omega
    rw [this]
  | succ fuel ih =>
    intro n current hb
    rcases Nat.lt_or_ge fuel (⌈(end_time - current) / (mean_pri * (1/10))⌉).toNat
      with h | h
    · have : (⌈(end_time - current) / (mean_pri * (1/10))⌉).toNat = fuel + 1 := by
        omega
      rw [this]
    · rw [jitter_pri_loop_stable end_time mean_pri draws hm fuel n current h]
      exact ih n current h

/-- C9: for every positive mean PRI, every jitter percentage and every
sequence of random draws, each inter-pulse gap produced by the jitter PRI
generator is at least `0.1 * mean_pri` (the `max` clamp), and therefore
the generation loop over `[start_time, end_time)` terminates: with fuel
`⌈(end_time - start_time) / (mean_pri/10)⌉` the loop has already crossed
`end_time`, so any further fuel leaves the output unchanged. -/
theorem C9_jitter_gap_floor_and_termination (fuel : ℕ)
    (start_time end_time mean_pri jitter_percentage : ℚ) (draws : ℕ → ℚ)
    (hm : 0 < mean_pri) :
    List.Chain' (fun a b => mean_pri * (1/10) ≤ b - a)
      (jitter_pri fuel start_time end_time mean_pri jitter_percentage draws) ∧
    ((⌈(end_time - start_time) / (mean_pri * (1/10))⌉).toNat ≤ fuel →
      jitter_pri fuel start_time end_time mean_pri jitter_percentage draws =
        jitter_pri (⌈(end_time - start_time) / (mean_pri * (1/10))⌉).toNat
          start_time end_time mean_pri jitter_percentage draws) := by
  constructor
  · exact jitter_pri_loop_chain end_time mean_pri draws fuel 0 start_time
  · intro hb
    exact jitter_pri_loop_stable_ge end_time mean_pri draws hm fuel 0 start_time hb

/-- C9 witness: jitter PRI with mean `0.001` s and 5 % jitter over
`[0, 0.01)` with the all-zero draw sequence has every gap at least
`0.0001` s, and its output is already stable at fuel 200. -/
theorem C9_witness :
    List.Chain' (fun a b => (1/1000 : ℚ) * (1/10) ≤ b - a)
      (jitter_pri 200 0 (1/100) (1/1000) 5 (fun _ => 0)) ∧
    ((⌈((1/100 : ℚ) - 0) / ((1/1000) * (1/10))⌉).toNat ≤ 200 →
      jitter_pri 200 0 (1/100) (1/1000) 5 (fun _ => 0) =
        jitter_pri (⌈((1/100 : ℚ) - 0) / ((1/1000) * (1/10))⌉).toNat 0 (1/100) (1/1000) 5
          (fun _ => 0)) :=
  C9_jitter_gap_floor_and_termination 200 0 (1/100) (1/1000) 5 (fun _ => 0) (by norm_num)
